import Mathlib

/-!
Shallow embedding of `cmiles/utils.py` (the BerkaLab/cmiles utility module).

Python values are modelled as follows: fallible functions return
`Except PyError _` (an exception is an `error`); machine floats coming from
the QCSchema JSON are modelled as exact rationals; calls into the external
toolkits (RDKit sanitization, SMILES/file parsers, OpenEye Omega) are
abstracted as explicit function parameters, since the spec declares their
behaviour out of scope.  `AssignStereochemistryFrom3D` only writes stereo
tags, which are outside the molecular data model used here, so it is the
identity on this model.
-/

namespace Cmiles

/-- Python exception values raised by the module, tagged by kind and message. -/
inductive PyError
  | keyError (msg : String)
  | runtimeError (msg : String)
  | valueError (msg : String)
  | indexError (msg : String)
  | typeError (msg : String)
  | nameError (msg : String)
  | warning (msg : String)
deriving DecidableEq, Repr

/-- RDKit bond types used by the `_BO_DISPATCH_TABLE` in `mol_from_json`. -/
inductive BondType
  | SINGLE
  | DOUBLE
  | TRIPLE
deriving DecidableEq, Repr

/-- An RDKit atom: element (atomic number) and atom-map number
(`GetAtomMapNum` / `SetAtomMapNum`).  `Chem.Atom(z)` starts with map number 0. -/
structure RDAtom where
  atomicNum : Nat
  atomMapNum : Nat
deriving DecidableEq, Repr

/-- An RDKit bond between two atom indices with a bond type. -/
structure RDBond where
  beginAtomIdx : Nat
  endAtomIdx : Nat
  bondType : BondType
deriving DecidableEq, Repr

/-- A 3D point (`rdkit.Geometry.rdGeometry.Point3D`), coordinates as exact rationals. -/
structure Point3D where
  x : Rat
  y : Rat
  z : Rat
deriving DecidableEq, Repr

/-- An RDKit conformer: one position per atom index.
`Chem.Conformer(n)` starts with `n` positions at the origin. -/
structure RDConformer where
  positions : List Point3D
deriving DecidableEq, Repr

/-- An RDKit molecule (`rdkit.Chem.Mol`): atoms, bonds, conformers and
string properties (`SetProp` / `GetProp`). -/
structure RDMol where
  atoms : List RDAtom
  bonds : List RDBond
  conformers : List RDConformer
  props : List (String × String)
deriving DecidableEq, Repr

/-- An OpenEye atom: only the fields the module touches (atomic number and
atom-map index, `GetMapIdx` / `SetMapIdx`). -/
structure OEAtom where
  atomicNum : Nat
  mapIdx : Nat
deriving DecidableEq, Repr

/-- An OpenEye molecule (`oechem.OEMol`), reduced to its atom list. -/
structure OEMol where
  atoms : List OEAtom
deriving DecidableEq, Repr

/-- A molecule from either backend, as dispatched on by the `isinstance`
checks in `is_mapped` and `remove_map`. -/
inductive Molecule
  | rd (m : RDMol)
  | oe (m : OEMol)
deriving DecidableEq, Repr

/-- The atom-map numbers of a molecule, in atom order, independent of backend. -/
def Molecule.mapNums : Molecule → List Nat
  | .rd m => m.atoms.map RDAtom.atomMapNum
  | .oe m => m.atoms.map OEAtom.mapIdx

/-- `is_mapped` (utils.py line 373): starts with `IS_MAPPED = True` and
flips it to `False` whenever an atom with map index 0 is seen. -/
def is_mapped (molecule : Molecule) : Bool :=
  match molecule with
  | .rd m => m.atoms.foldl (fun acc atom => if atom.atomMapNum = 0 then false else acc) true
  | .oe m => m.atoms.foldl (fun acc atom => if atom.mapIdx = 0 then false else acc) true

/-- `remove_map` (utils.py line 392): sets every atom's map index to 0.
The Python function mutates in place; the model returns the updated molecule. -/
def remove_map (molecule : Molecule) : Molecule :=
  match molecule with
  | .rd m => .rd { m with atoms := m.atoms.map (fun a => { a with atomMapNum := 0 }) }
  | .oe m => .oe { m with atoms := m.atoms.map (fun a => { a with mapIdx := 0 }) }

/-- The element-symbol table `_symbols` (utils.py line 22), mapping element
symbols to atomic numbers, as an association list. -/
def _symbols : List (String × Nat) :=
  [("H", 1), ("He", 2),
   ("Li", 3), ("Be", 4), ("B", 5), ("C", 6), ("N", 7), ("O", 8), ("F", 9), ("Ne", 10),
   ("Na", 11), ("Mg", 12), ("Al", 13), ("Si", 14), ("P", 15), ("S", 16), ("Cl", 17), ("Ar", 18),
   ("K", 19), ("Ca", 20), ("Sc", 21), ("Ti", 22), ("V", 23), ("Cr", 24), ("Mn", 25), ("Fe", 26),
   ("Co", 27), ("Ni", 28), ("Cu", 29), ("Zn", 30), ("Ga", 31), ("Ge", 32), ("As", 33), ("Se", 34),
   ("Br", 35), ("Kr", 36),
   ("Rb", 37), ("Sr", 38), ("Y", 39), ("Zr", 40), ("Nb", 41), ("Mo", 42), ("Tc", 43), ("Ru", 44),
   ("Rh", 45), ("Pd", 46), ("Ag", 47), ("Cd", 48), ("In", 49), ("Sn", 50), ("Sb", 51), ("Te", 52),
   ("I", 53), ("Xe", 54),
   ("Cs", 55), ("Ba", 56), ("La", 57), ("Ce", 58), ("Pr", 59), ("Nd", 60), ("Pm", 61), ("Sm", 62),
   ("Eu", 63), ("Gd", 64), ("Tb", 65), ("Dy", 66), ("Ho", 67), ("Er", 68), ("Tm", 69), ("Yb", 70),
   ("Lu", 71), ("Hf", 72), ("Ta", 73), ("W", 74), ("Re", 75), ("Os", 76), ("Ir", 77), ("Pt", 78),
   ("Au", 79), ("Hg", 80), ("Tl", 81), ("Pb", 82), ("Bi", 83), ("Po", 84), ("At", 85), ("Rn", 86),
   ("Fr", 87), ("Ra", 88), ("Ac", 89), ("Th", 90), ("Pa", 91), ("U", 92), ("Np", 93), ("Pu", 94),
   ("Am", 95), ("Cm", 96), ("Bk", 97), ("Cf", 98), ("Es", 99), ("Fm", 100), ("Md", 101),
   ("No", 102), ("Lr", 103), ("Rf", 104), ("Db", 105), ("Sg", 106), ("Bh", 107), ("Hs", 108),
   ("Mt", 109)]

/-- `BOHR_2_ANGSTROM = 0.529177210` (utils.py line 31), as an exact rational. -/
def BOHR_2_ANGSTROM : Rat := 529177210 / 1000000000

/-- `ANGSROM_2_BOHR = 1. / BOHR_2_ANGSTROM` (utils.py line 32; the typo is the source's). -/
def ANGSROM_2_BOHR : Rat := 1 / BOHR_2_ANGSTROM

/-- A QCSchema JSON molecule, restricted to the keys `mol_from_json` reads.
`none` models an absent key (dictionary access then raises `KeyError`).
A connectivity entry `[a, b, o]` is the triple `(a, (b, o))`. -/
structure JsonMol where
  symbols : Option (List String)
  connectivity : Option (List (Nat × Nat × Nat))
  geometry : Option (List Rat)
deriving Repr

/-- `np.array(g).reshape(len(g)/3, 3)`: group a flat coordinate list into rows
of three.  A trailing fragment of fewer than three entries is dropped (the
caller raises before this can happen, since it checks divisibility by 3). -/
def reshapeRows : List Rat → List Point3D
  | x :: y :: z :: rest => ⟨x, y, z⟩ :: reshapeRows rest
  | _ => []

/-- The atom-construction loop of `mol_from_json` (utils.py lines 336-340):
for each symbol, `em.AddAtom(Chem.Atom(_symbols[s]))` (a `KeyError` for an
unknown symbol), and when geometry is present, read row `i` of the reshaped
geometry (an `IndexError` past its end) and `conformer.SetAtomPosition(i, ...)`. -/
def buildAtoms : List String → Nat → List RDAtom → RDConformer → Option (List Point3D) →
    Except PyError (List RDAtom × RDConformer)
  | [], _, atoms, conformer, _ => .ok (atoms, conformer)
  | s :: rest, i, atoms, conformer, geometry? =>
    match _symbols.lookup s with
    | none => .error (.keyError s)
    | some z =>
      let atoms := atoms ++ [{ atomicNum := z, atomMapNum := 0 }]
      match geometry? with
      | none => buildAtoms rest (i + 1) atoms conformer none
      | some geometry =>
        match geometry[i]? with
        | none => .error (.indexError "index out of bounds")
        | some p => buildAtoms rest (i + 1) atoms ⟨conformer.positions.set i p⟩ (some geometry)

/-- `_BO_DISPATCH_TABLE` (utils.py line 324): bond order to RDKit bond type. -/
def _BO_DISPATCH_TABLE : List (Nat × BondType) :=
  [(1, .SINGLE), (2, .DOUBLE), (3, .TRIPLE)]

/-- The bond-construction loop of `mol_from_json` (utils.py lines 343-345):
for each entry, `_BO_DISPATCH_TABLE[bond[-1]]` (an unguarded lookup, so a
`KeyError` for any other order) and `em.AddBond(bond[0], bond[1], bond_type)`
(whose RDKit precondition requires two distinct in-range atom indices). -/
def addBonds : List (Nat × Nat × Nat) → Nat → List RDBond → Except PyError (List RDBond)
  | [], _, bonds => .ok bonds
  | (a, b, o) :: rest, numAtoms, bonds =>
    match _BO_DISPATCH_TABLE.lookup o with
    | none => .error (.keyError (toString o))
    | some bt =>
      if a < numAtoms ∧ b < numAtoms ∧ a ≠ b then
        addBonds rest numAtoms (bonds ++ [{ beginAtomIdx := a, endAtomIdx := b, bondType := bt }])
      else .error (.runtimeError "Pre-condition Violation")

/-- The state of `mol_from_json` just before `Chem.SanitizeMol` (utils.py
line 349): the assembled molecular graph, whether a geometry was given, and
the conformer filled in during the atom loop. -/
structure AssembledGraph where
  molecule : RDMol
  has_geometry : Bool
  conformer : RDConformer
deriving DecidableEq, Repr

/-- Lines 326-347 of `mol_from_json`: read `symbols` and `connectivity`
(`KeyError` when absent), reshape and scale the geometry when present
(`ValueError` when its length is not a multiple of 3), create
`Chem.Conformer(len(symbols))`, then run the atom and bond loops. -/
def assembleGraph (inp_molecule : JsonMol) : Except PyError AssembledGraph :=
  match inp_molecule.symbols with
  | none => .error (.keyError "symbols")
  | some symbols =>
    match inp_molecule.connectivity with
    | none => .error (.keyError "connectivity")
    | some connectivity =>
      match inp_molecule.geometry with
      | some g =>
        if g.length % 3 = 0 then
          match buildAtoms symbols 0 [] ⟨List.replicate symbols.length ⟨0, 0, 0⟩⟩
              (some (reshapeRows (g.map (fun v => v * BOHR_2_ANGSTROM)))) with
          | .error e => .error e
          | .ok (atoms, conformer) =>
            match addBonds connectivity atoms.length [] with
            | .error e => .error e
            | .ok bonds => .ok ⟨⟨atoms, bonds, [], []⟩, true, conformer⟩
        else .error (.valueError "cannot reshape array")
      | none =>
        match buildAtoms symbols 0 [] ⟨[]⟩ none with
        | .error e => .error e
        | .ok (atoms, conformer) =>
          match addBonds connectivity atoms.length [] with
          | .error e => .error e
          | .ok bonds => .ok ⟨⟨atoms, bonds, [], []⟩, false, conformer⟩

/-- `mol_from_json` (utils.py line 306).  The external `Chem.SanitizeMol` is
abstracted as the predicate `sanitizeOk` on the assembled graph; when it fails
the function raises `RuntimeError("Could not sanitize molecule")` (line 351).
On success with geometry, `AddConformer` appends the conformer and
`SetProp("_json_geometry", '1')` tags the molecule (lines 354-360);
`AssignStereochemistryFrom3D` only writes stereo tags, which lie outside this
data model. -/
def mol_from_json (sanitizeOk : RDMol → Bool) (inp_molecule : JsonMol) :
    Except PyError RDMol :=
  match assembleGraph inp_molecule with
  | .error e => .error e
  | .ok g =>
    if sanitizeOk g.molecule then
      if g.has_geometry then
        .ok { g.molecule with
          conformers := g.molecule.conformers ++ [g.conformer],
          props := g.molecule.props ++ [("_json_geometry", "1")] }
      else .ok g.molecule
    else .error (.runtimeError "Could not sanitize molecule")

/-- Index of the last occurrence of a character (Python `str.rfind`),
`none` when absent. -/
def rfind (c : Char) : List Char → Option Nat
  | [] => none
  | x :: xs =>
    match rfind c xs with
    | some k => some (k + 1)
    | none => if x = c then some 0 else none

/-- `os.path.splitext` (posixpath): split at the last dot after the last
slash, unless every basename character before that dot is itself a dot
(leading dots never start an extension). -/
def splitext (p : List Char) : List Char × List Char :=
  match rfind '.' p with
  | none => (p, [])
  | some d =>
    match rfind '/' p with
    | none =>
      if (p.take d).any (fun ch => ch ≠ '.') then (p.take d, p.drop d) else (p, [])
    | some k =>
      if k + 1 ≤ d ∧ ((p.drop (k + 1)).take (d - (k + 1))).any (fun ch => ch ≠ '.') then
        (p.take d, p.drop d)
      else (p, [])

/-- `_get_extension` (utils.py line 365): the final extension, except that a
`.gz` file also keeps its penultimate extension. -/
def _get_extension (filename : List Char) : List Char :=
  if (splitext filename).2 = ".gz".toList then
    (splitext (splitext filename).1).2 ++ (splitext filename).2
  else (splitext filename).2

/-- The external RDKit entry points `_load_mol_rd` calls, abstracted: each
parser returns the molecule or `none` (Python `None`) on failure. -/
structure RdToolkit where
  molFromSmiles : List Char → Option RDMol
  molFromPDBFile : List Char → Option RDMol
  molFromMol2File : List Char → Option RDMol
  molFromTPLFile : List Char → Option RDMol
  oeMolToSmiles : OEMol → List Char

/-- The external OpenEye entry points `_load_mol_oe` calls, abstracted.
`readFile` is the `oemolistream`: `none` when the file cannot be opened,
otherwise the stream of molecules. -/
structure OeToolkit where
  parseSmiles : List Char → Option OEMol
  readFile : List Char → Option (List OEMol)
  smilesToMol : List Char → OEMol
  rdMolToSmiles : RDMol → List Char

/-- `_EXT_DISPATCH_TABLE` (utils.py line 127). -/
def _EXT_DISPATCH_TABLE (tk : RdToolkit) : List (List Char × (List Char → Option RDMol)) :=
  [(".pdb".toList, tk.molFromPDBFile), (".mol2".toList, tk.molFromMol2File),
   (".tpl".toList, tk.molFromTPLFile)]

/-- The input kinds `load_molecule` and its backends dispatch on with
`isinstance`: a JSON dict, a string, an RDKit molecule, an OpenEye molecule. -/
inductive InpMolecule
  | json (j : JsonMol)
  | str (s : List Char)
  | rdMol (m : RDMol)
  | oeMol (m : OEMol)

/-- `_load_mol_rd` (utils.py line 125).  A string with no extension is parsed
as SMILES (`Warning` when that fails); a string with an extension goes through
`_EXT_DISPATCH_TABLE` (`KeyError` for an unknown extension, and the parser
result — possibly `None` — is returned unchecked); an RDKit molecule is
deep-copied; with OpenEye available an OpenEye molecule is round-tripped
through SMILES; any other input leaves `molecule` unbound, a Python
`UnboundLocalError` (modelled as `nameError`). -/
def _load_mol_rd (tk : RdToolkit) (has_openeye : Bool) (inp_molecule : InpMolecule) :
    Except PyError (Option RDMol) :=
  match inp_molecule with
  | .str s =>
    if _get_extension s = [] then
      match tk.molFromSmiles s with
      | none => .error (.warning "Could not parse molecule")
      | some molecule => .ok (some molecule)
    else
      match (_EXT_DISPATCH_TABLE tk).lookup (_get_extension s) with
      | none => .error (.keyError ("Could not parse " ++ String.mk (_get_extension s)))
      | some parseFile => .ok (parseFile s)
  | .rdMol m => .ok (some m)
  | .oeMol m =>
    if has_openeye then .ok (tk.molFromSmiles (tk.oeMolToSmiles m))
    else .error (.nameError "molecule")
  | .json _ => .error (.nameError "molecule")

/-- `_load_mol_oe` (utils.py line 156).  Starts from a fresh empty `OEMol`;
a string with no extension is parsed as SMILES, a string with an extension is
read through an `oemolistream` (`Warning` when it cannot be opened), keeping
the last molecule of the stream; an OpenEye molecule is deep-copied; with
RDKit available an RDKit molecule is round-tripped through SMILES; any other
input returns the initial empty molecule. -/
def _load_mol_oe (tk : OeToolkit) (has_rdkit : Bool) (inp_molecule : InpMolecule) :
    Except PyError OEMol :=
  match inp_molecule with
  | .str s =>
    if _get_extension s = [] then
      match tk.parseSmiles s with
      | none => .error (.warning "Could not parse molecule")
      | some molecule => .ok molecule
    else
      match tk.readFile s with
      | none => .error (.warning "OpenEye could not open File")
      | some mols => .ok (mols.getLast?.getD ⟨[]⟩)
  | .oeMol m => .ok m
  | .rdMol m =>
    if has_rdkit then .ok (tk.smilesToMol (tk.rdMolToSmiles m))
    else .ok ⟨[]⟩
  | .json _ => .ok ⟨[]⟩

/-- The value `load_molecule` returns: an RDKit value (possibly `None`) or an
OpenEye molecule, depending on the branch taken. -/
inductive PyMolValue
  | rdVal (m : Option RDMol)
  | oeVal (m : OEMol)
deriving DecidableEq, Repr

/-- `load_molecule` (utils.py line 91): a dict goes to `mol_from_json`
regardless of backend; otherwise the `backend` string picks `_load_mol_rd`
(`RuntimeError` when RDKit is missing) or `_load_mol_oe` (`RuntimeError` when
OpenEye is missing); any other backend string raises `RuntimeError`. -/
def load_molecule (tkRd : RdToolkit) (tkOe : OeToolkit) (sanitizeOk : RDMol → Bool)
    (has_rdkit has_openeye : Bool) (inp_molecule : InpMolecule) (backend : String) :
    Except PyError PyMolValue :=
  match inp_molecule with
  | .json j =>
    match mol_from_json sanitizeOk j with
    | .error e => .error e
    | .ok m => .ok (.rdVal (some m))
  | inp =>
    if backend = "rdkit" then
      if has_rdkit then
        match _load_mol_rd tkRd has_openeye inp with
        | .error e => .error e
        | .ok m => .ok (.rdVal m)
      else .error (.runtimeError "You need to have RDKit installed to use the RDKit backend")
    else if backend = "openeye" then
      if has_openeye then
        match _load_mol_oe tkOe has_rdkit inp with
        | .error e => .error e
        | .ok m => .ok (.oeVal m)
      else .error (.runtimeError
        "You need to have OpenEye installed or an up-to-date license to use the openeye backend")
    else .error (.runtimeError "You must have either RDKit or OpenEye installed")

/-- The observable outcome of `generate_conformers`: the value returned (or
the exception raised) together with the final state of the caller's molecule
object. -/
structure ConformerOutcome where
  returned : Except PyError OEMol
  inputFinal : OEMol

/-- `generate_conformers` (utils.py line 35).  The configured Omega run is
abstracted as `omegaRun`, mapping a molecule state to its post-run state and
the success status; `omega(molcopy)` mutates `molcopy` in place.  With
`copy=True` the run operates on the fresh copy `OEMol(molecule)`, so the
caller's object keeps its state; with `copy=False` `molcopy` aliases the
input, which therefore ends in the post-run state.  A falsy status raises
`RuntimeError` (line 86); otherwise `molcopy` is returned. -/
def generate_conformers (omegaRun : OEMol → OEMol × Bool) (molecule : OEMol)
    (copy : Bool) : ConformerOutcome :=
  if copy then
    { returned :=
        if (omegaRun molecule).2 then .ok (omegaRun molecule).1
        else .error (.runtimeError "omega returned error code"),
      inputFinal := molecule }
  else
    { returned :=
        if (omegaRun molecule).2 then .ok (omegaRun molecule).1
        else .error (.runtimeError "omega returned error code"),
      inputFinal := (omegaRun molecule).1 }

/-- A trivially instantiated RDKit toolkit, for exercising the dispatch at
concrete inputs. -/
def stubRdToolkit : RdToolkit :=
  ⟨fun _ => none, fun _ => none, fun _ => none, fun _ => none, fun _ => []⟩

/-- A trivially instantiated OpenEye toolkit, for exercising the dispatch at
concrete inputs. -/
def stubOeToolkit : OeToolkit :=
  ⟨fun _ => none, fun _ => none, fun _ => ⟨[]⟩, fun _ => []⟩

/-- The `IS_MAPPED` flag loop computes the conjunction of the flag with
"no scanned atom has map index 0". -/
lemma foldl_flag {α : Type} (p : α → Prop) [DecidablePred p] (l : List α) (b : Bool) :
    l.foldl (fun acc a => if p a then false else acc) b
      = (b && l.all (fun a => !decide (p a))) := by
  induction l generalizing b with
  | nil => simp
  | cons x xs ih =>
    rw [List.foldl_cons, ih, List.all_cons]
    by_cases hx : p x <;> simp [hx, Bool.and_assoc]

lemma all_map_eq {α β : Type} (f : α → β) (p : β → Bool) (l : List α) :
    (l.map f).all p = l.all (fun a => p (f a)) := by
  induction l with
  | nil => rfl
  | cons x xs ih => simp [List.all_cons, ih]

lemma is_mapped_eq_all (molecule : Molecule) :
    is_mapped molecule = molecule.mapNums.all (fun n => !decide (n = 0)) := by
  cases molecule with
  | rd m =>
    simp only [is_mapped, Molecule.mapNums, foldl_flag (fun a : RDAtom => a.atomMapNum = 0),
      Bool.true_and]
    rw [all_map_eq]
  | oe m =>
    simp only [is_mapped, Molecule.mapNums, foldl_flag (fun a : OEAtom => a.mapIdx = 0),
      Bool.true_and]
    rw [all_map_eq]

lemma remove_map_mapNums (molecule : Molecule) :
    (remove_map molecule).mapNums = List.replicate molecule.mapNums.length 0 := by
  cases molecule with
  | rd m =>
    simp only [remove_map, Molecule.mapNums, List.map_map, List.length_map]
    induction m.atoms with
    | nil => rfl
    | cons a l ih =>
      rw [List.length_cons, List.replicate_succ, List.map_cons]
      exact congrArg (List.cons 0) ih
  | oe m =>
    simp only [remove_map, Molecule.mapNums, List.map_map, List.length_map]
    induction m.atoms with
    | nil => rfl
    | cons a l ih =>
      rw [List.length_cons, List.replicate_succ, List.map_cons]
      exact congrArg (List.cons 0) ih

/-- C8. `is_mapped` returns `True` iff no atom of the molecule has atom-map
index 0; in particular it returns `True` vacuously on a molecule with zero atoms. -/
theorem is_mapped_true_iff_no_zero_map (molecule : Molecule) :
    (is_mapped molecule = true ↔ ∀ n ∈ molecule.mapNums, n ≠ 0) ∧
    (molecule.mapNums = [] → is_mapped molecule = true) := by
  constructor
  · rw [is_mapped_eq_all, List.all_eq_true]
    constructor
    · intro h n hn
      have := h n hn
      simpa using this
    · intro h n hn
      simpa using h n hn
  · intro h
    rw [is_mapped_eq_all, h]
    rfl

/-- C7. For every molecule with at least one atom, after `remove_map`
every atom has atom-map index 0, and consequently `is_mapped` returns `False`. -/
theorem remove_map_clears_and_unmaps (molecule : Molecule)
    (h : molecule.mapNums ≠ []) :
    (∀ n ∈ (remove_map molecule).mapNums, n = 0) ∧
    is_mapped (remove_map molecule) = false := by
  constructor
  · intro n hn
    rw [remove_map_mapNums] at hn
    exact List.eq_of_mem_replicate hn
  · rw [is_mapped_eq_all, remove_map_mapNums]
    have hlen : molecule.mapNums.length ≠ 0 := by
      intro hc
      exact h (List.eq_nil_of_length_eq_zero hc)
    cases hml : molecule.mapNums.length with
    | zero => exact absurd hml hlen
    | succ k => simp [List.replicate]

/-- Witness for C7 at a concrete one-atom RDKit molecule. -/
theorem remove_map_clears_and_unmaps_witness :
    (∀ n ∈ (remove_map (.rd ⟨[⟨8, 3⟩], [], [], []⟩)).mapNums, n = 0) ∧
    is_mapped (remove_map (.rd ⟨[⟨8, 3⟩], [], [], []⟩)) = false :=
  remove_map_clears_and_unmaps (.rd ⟨[⟨8, 3⟩], [], [], []⟩) (by decide)

lemma reshapeRows_length (l : List Rat) : (reshapeRows l).length = l.length / 3 := by
  induction l using reshapeRows.induct with
  | case1 x y z rest ih =>
    simp only [reshapeRows, List.length_cons, ih]
    omega
  | case2 l h =>
    match l, h with
    | [], _ => simp [reshapeRows]
    | [x], _ => simp [reshapeRows]
    | [x, y], _ => simp [reshapeRows]
    | x :: y :: z :: rest, h => exact (h x y z rest rfl).elim

lemma reshapeRows_getElem? (l : List Rat) (j : Nat) :
    (reshapeRows l)[j]? =
      match l[3 * j]?, l[3 * j + 1]?, l[3 * j + 2]? with
      | some x, some y, some z => some (⟨x, y, z⟩ : Point3D)
      | _, _, _ => none := by
  induction l using reshapeRows.induct generalizing j with
  | case1 x y z rest ih =>
    cases j with
    | zero => simp [reshapeRows]
    | succ j' =>
      have h3 : 3 * (j' + 1) = 3 * j' + 1 + 1 + 1 := by omega
      have h4 : 3 * (j' + 1) + 1 = 3 * j' + 1 + 1 + 1 + 1 := by omega
      have h5 : 3 * (j' + 1) + 2 = 3 * j' + 2 + 1 + 1 + 1 := by omega
      simp only [reshapeRows, List.getElem?_cons_succ, ih j', h3, h4, h5]
  | case2 l h =>
    match l, h with
    | [], _ => cases j <;> simp [reshapeRows]
    | [x], _ => cases j <;> simp [reshapeRows]
    | [x, y], _ =>
      cases j with
      | zero => simp [reshapeRows]
      | succ j' => cases j' <;> simp [reshapeRows]
    | x :: y :: z :: rest, h => exact (h x y z rest rfl).elim

/-- What a successful atom loop with geometry guarantees: atoms are appended
in order, with element looked up in `_symbols` and map number 0; every scanned
geometry row exists; the conformer is the input conformer overwritten with the
scanned rows on the indices it actually has. -/
lemma buildAtoms_some_ok (symbols : List String) :
    ∀ (i : Nat) (atoms : List RDAtom) (conf : RDConformer) (rows : List Point3D)
      (atomsOut : List RDAtom) (confOut : RDConformer),
    buildAtoms symbols i atoms conf (some rows) = .ok (atomsOut, confOut) →
    atomsOut.length = atoms.length + symbols.length
    ∧ (∀ j, j < atoms.length → atomsOut[j]? = atoms[j]?)
    ∧ (∀ j (hj : j < symbols.length),
        ∃ z, _symbols.lookup (symbols.get ⟨j, hj⟩) = some z
          ∧ atomsOut[atoms.length + j]? = some ⟨z, 0⟩)
    ∧ (∀ j, j < symbols.length → i + j < rows.length)
    ∧ (∀ k, confOut.positions[k]? =
        if i ≤ k ∧ k < i + symbols.length then
          (if k < conf.positions.length then rows[k]? else none)
        else conf.positions[k]?) := by
  induction symbols with
  | nil =>
    intro i atoms conf rows atomsOut confOut h
    simp only [buildAtoms] at h
    obtain ⟨ha, hc⟩ : atoms = atomsOut ∧ conf = confOut := by
      cases h
      exact ⟨rfl, rfl⟩
    subst ha
    subst hc
    refine ⟨by simp, fun j _ => rfl, fun j hj => absurd hj (by simp), fun j hj => absurd hj (by simp), fun k => ?_⟩
    rw [if_neg (by simp)]
  | cons s rest ih =>
    intro i atoms conf rows atomsOut confOut h
    simp only [buildAtoms] at h
    cases hz : _symbols.lookup s with
    | none => rw [hz] at h; cases h
    | some z =>
      rw [hz] at h
      cases hp : rows[i]? with
      | none => rw [hp] at h; cases h
      | some p =>
        rw [hp] at h
        obtain ⟨ih1, ih2, ih3, ih4, ih5⟩ := ih (i + 1) (atoms ++ [⟨z, 0⟩])
          ⟨conf.positions.set i p⟩ rows atomsOut confOut h
        have hip : i < rows.length := by
          by_contra hlt
          rw [List.getElem?_eq_none (by omega)] at hp
          cases hp
        refine ⟨?_, ?_, ?_, ?_, ?_⟩
        · simp only [List.length_append, List.length_singleton] at ih1
          simp only [List.length_cons, ih1]
          omega
        · intro j hj
          rw [ih2 j (by simp; omega), List.getElem?_append_left hj]
        · intro j hj
          cases j with
          | zero =>
            refine ⟨z, hz, ?_⟩
            have := ih2 atoms.length (by simp)
            rw [Nat.add_zero, this, List.getElem?_concat_length]
          | succ j' =>
            obtain ⟨z', hz', hget⟩ := ih3 j' (by simp at hj; omega)
            refine ⟨z', hz', ?_⟩
            have hidx : atoms.length + (j' + 1) = (atoms ++ [(⟨z, 0⟩ : RDAtom)]).length + j' := by
              simp
              omega
            rw [hidx]
            exact hget
        · intro j hj
          cases j with
          | zero => omega
          | succ j' =>
            have := ih4 j' (by simp at hj; omega)
            omega
        · intro k
          rw [ih5 k]
          simp only [List.length_cons, List.length_set]
          by_cases hk1 : i + 1 ≤ k ∧ k < i + 1 + rest.length
          · rw [if_pos hk1, if_pos (show i ≤ k ∧ k < i + (rest.length + 1) by omega)]
          · rw [if_neg hk1]
            by_cases hk2 : k = i
            · subst hk2
              rw [if_pos (show k ≤ k ∧ k < k + (rest.length + 1) by omega)]
              by_cases hkl : k < conf.positions.length
              · rw [if_pos hkl, List.getElem?_set_self hkl, hp]
              · have hnone : (conf.positions.set k p)[k]? = none :=
                  List.getElem?_eq_none (by simp only [List.length_set]; omega)
                rw [if_neg hkl, hnone]
            · rw [List.getElem?_set_ne (fun hc => hk2 hc.symm),
                if_neg (show ¬(i ≤ k ∧ k < i + (rest.length + 1)) by omega)]

/-- What a successful atom loop without geometry guarantees. -/
lemma buildAtoms_none_ok (symbols : List String) :
    ∀ (i : Nat) (atoms : List RDAtom) (conf : RDConformer)
      (atomsOut : List RDAtom) (confOut : RDConformer),
    buildAtoms symbols i atoms conf none = .ok (atomsOut, confOut) →
    atomsOut.length = atoms.length + symbols.length
    ∧ (∀ j, j < atoms.length → atomsOut[j]? = atoms[j]?)
    ∧ (∀ j (hj : j < symbols.length),
        ∃ z, _symbols.lookup (symbols.get ⟨j, hj⟩) = some z
          ∧ atomsOut[atoms.length + j]? = some ⟨z, 0⟩)
    ∧ confOut = conf := by
  induction symbols with
  | nil =>
    intro i atoms conf atomsOut confOut h
    simp only [buildAtoms] at h
    obtain ⟨ha, hc⟩ : atoms = atomsOut ∧ conf = confOut := by
      cases h
      exact ⟨rfl, rfl⟩
    subst ha
    subst hc
    exact ⟨by simp, fun j _ => rfl, fun j hj => absurd hj (by simp), rfl⟩
  | cons s rest ih =>
    intro i atoms conf atomsOut confOut h
    simp only [buildAtoms] at h
    cases hz : _symbols.lookup s with
    | none => rw [hz] at h; cases h
    | some z =>
      rw [hz] at h
      obtain ⟨ih1, ih2, ih3, ih4⟩ := ih (i + 1) (atoms ++ [⟨z, 0⟩]) conf atomsOut confOut h
      refine ⟨?_, ?_, ?_, ih4⟩
      · simp only [List.length_append, List.length_singleton] at ih1
        simp only [List.length_cons, ih1]
        omega
      · intro j hj
        rw [ih2 j (by simp; omega), List.getElem?_append_left hj]
      · intro j hj
        cases j with
        | zero =>
          refine ⟨z, hz, ?_⟩
          have := ih2 atoms.length (by simp)
          rw [Nat.add_zero, this, List.getElem?_concat_length]
        | succ j' =>
          obtain ⟨z', hz', hget⟩ := ih3 j' (by simp at hj; omega)
          refine ⟨z', hz', ?_⟩
          have hidx : atoms.length + (j' + 1) = (atoms ++ [(⟨z, 0⟩ : RDAtom)]).length + j' := by
            simp
            omega
          rw [hidx]
          exact hget

/-- The atom loop succeeds whenever every symbol is known and (with geometry)
the rows cover all remaining atoms. -/
lemma buildAtoms_some_total (symbols : List String) :
    ∀ (i : Nat) (atoms : List RDAtom) (conf : RDConformer) (rows : List Point3D),
    (∀ s ∈ symbols, (_symbols.lookup s).isSome) →
    i + symbols.length ≤ rows.length →
    ∃ res, buildAtoms symbols i atoms conf (some rows) = .ok res := by
  induction symbols with
  | nil => intro i atoms conf rows _ _; exact ⟨(atoms, conf), rfl⟩
  | cons s rest ih =>
    intro i atoms conf rows hsym hlen
    have hz := hsym s (List.mem_cons_self s rest)
    obtain ⟨z, hz⟩ := Option.isSome_iff_exists.mp hz
    have hp : ∃ p, rows[i]? = some p := by
      have hi : i < rows.length := by simp at hlen; omega
      exact ⟨rows.get ⟨i, hi⟩, List.getElem?_eq_some.mpr ⟨hi, rfl⟩⟩
    obtain ⟨p, hp⟩ := hp
    obtain ⟨res, hres⟩ := ih (i + 1) (atoms ++ [⟨z, 0⟩]) ⟨conf.positions.set i p⟩ rows
      (fun t ht => hsym t (List.mem_cons_of_mem s ht)) (by simp at hlen ⊢; omega)
    exact ⟨res, by simp only [buildAtoms, hz, hp]; exact hres⟩

/-- The atom loop succeeds without geometry whenever every symbol is known. -/
lemma buildAtoms_none_total (symbols : List String) :
    ∀ (i : Nat) (atoms : List RDAtom) (conf : RDConformer),
    (∀ s ∈ symbols, (_symbols.lookup s).isSome) →
    ∃ res, buildAtoms symbols i atoms conf none = .ok res := by
  induction symbols with
  | nil => intro i atoms conf _; exact ⟨(atoms, conf), rfl⟩
  | cons s rest ih =>
    intro i atoms conf hsym
    obtain ⟨z, hz⟩ := Option.isSome_iff_exists.mp (hsym s (List.mem_cons_self s rest))
    obtain ⟨res, hres⟩ := ih (i + 1) (atoms ++ [⟨z, 0⟩]) conf
      (fun t ht => hsym t (List.mem_cons_of_mem s ht))
    exact ⟨res, by simp only [buildAtoms, hz]; exact hres⟩

/-- With all symbols known but too few geometry rows, the atom loop raises the
`IndexError` of `geometry[i]`. -/
lemma buildAtoms_some_short (symbols : List String) :
    ∀ (i : Nat) (atoms : List RDAtom) (conf : RDConformer) (rows : List Point3D),
    (∀ s ∈ symbols, (_symbols.lookup s).isSome) →
    i ≤ rows.length → rows.length < i + symbols.length →
    buildAtoms symbols i atoms conf (some rows) = .error (.indexError "index out of bounds") := by
  induction symbols with
  | nil => intro i atoms conf rows _ h1 h2; simp at h2; omega
  | cons s rest ih =>
    intro i atoms conf rows hsym hle hlt
    obtain ⟨z, hz⟩ := Option.isSome_iff_exists.mp (hsym s (List.mem_cons_self s rest))
    by_cases hi : i < rows.length
    · have hp : ∃ p, rows[i]? = some p :=
        ⟨rows.get ⟨i, hi⟩, List.getElem?_eq_some.mpr ⟨hi, rfl⟩⟩
      obtain ⟨p, hp⟩ := hp
      simp only [buildAtoms, hz, hp]
      exact ih (i + 1) (atoms ++ [⟨z, 0⟩]) ⟨conf.positions.set i p⟩ rows
        (fun t ht => hsym t (List.mem_cons_of_mem s ht)) (by omega) (by simp at hlt ⊢; omega)
    · have hp : rows[i]? = none := List.getElem?_eq_none (by omega)
      simp only [buildAtoms, hz, hp]

/-- The bond-order dispatch table maps exactly 1, 2, 3 to SINGLE, DOUBLE, TRIPLE. -/
lemma bo_lookup_eq (o : Nat) :
    _BO_DISPATCH_TABLE.lookup o =
      if o = 1 then some .SINGLE
      else if o = 2 then some .DOUBLE
      else if o = 3 then some .TRIPLE
      else none := by
  by_cases h1 : o = 1 <;> by_cases h2 : o = 2 <;> by_cases h3 : o = 3 <;>
    simp [_BO_DISPATCH_TABLE, List.lookup, h1, h2, h3, Nat.beq_eq_true_eq,
      show ∀ m, (o == m) = decide (o = m) from fun _ => rfl]

/-- What a successful bond loop guarantees: one bond appended per connectivity
entry, in order, with the dispatched bond type, and every entry satisfied the
RDKit `AddBond` precondition. -/
lemma addBonds_ok (conn : List (Nat × Nat × Nat)) :
    ∀ (numAtoms : Nat) (bonds res : List RDBond),
    addBonds conn numAtoms bonds = .ok res →
    res.length = bonds.length + conn.length
    ∧ (∀ j, j < bonds.length → res[j]? = bonds[j]?)
    ∧ (∀ j (hj : j < conn.length),
        ∃ bt, _BO_DISPATCH_TABLE.lookup (conn.get ⟨j, hj⟩).2.2 = some bt
          ∧ res[bonds.length + j]? =
              some ⟨(conn.get ⟨j, hj⟩).1, (conn.get ⟨j, hj⟩).2.1, bt⟩
          ∧ (conn.get ⟨j, hj⟩).1 < numAtoms ∧ (conn.get ⟨j, hj⟩).2.1 < numAtoms
          ∧ (conn.get ⟨j, hj⟩).1 ≠ (conn.get ⟨j, hj⟩).2.1) := by
  induction conn with
  | nil =>
    intro numAtoms bonds res h
    have hb : bonds = res := by
      simp only [addBonds] at h
      cases h
      rfl
    subst hb
    exact ⟨by simp, fun j _ => rfl, fun j hj => absurd hj (by simp)⟩
  | cons e rest ih =>
    obtain ⟨a, b, o⟩ := e
    intro numAtoms bonds res h
    simp only [addBonds] at h
    cases hbt : _BO_DISPATCH_TABLE.lookup o with
    | none => rw [hbt] at h; cases h
    | some bt =>
      simp only [hbt] at h
      by_cases hpre : a < numAtoms ∧ b < numAtoms ∧ a ≠ b
      · rw [if_pos hpre] at h
        obtain ⟨ih1, ih2, ih3⟩ :=
          ih numAtoms (bonds ++ [{ beginAtomIdx := a, endAtomIdx := b, bondType := bt }]) res h
        refine ⟨?_, ?_, ?_⟩
        · simp only [List.length_append, List.length_cons] at ih1 ⊢
          simp at ih1
          omega
        · intro j hj
          rw [ih2 j (by simp; omega), List.getElem?_append_left hj]
        · intro j hj
          cases j with
          | zero =>
            refine ⟨bt, hbt, ?_, hpre.1, hpre.2.1, hpre.2.2⟩
            have := ih2 bonds.length (by simp)
            rw [Nat.add_zero, this, List.getElem?_concat_length]
            rfl
          | succ j' =>
            obtain ⟨bt', hbt', hget, hlt⟩ := ih3 j' (by simp at hj; omega)
            refine ⟨bt', hbt', ?_, hlt⟩
            have hidx : bonds.length + (j' + 1) =
                (bonds ++ [({ beginAtomIdx := a, endAtomIdx := b, bondType := bt } : RDBond)]).length + j' := by
              simp
              omega
            rw [hidx]
            exact hget
      · rw [if_neg hpre] at h
        cases h

/-- The bond loop succeeds whenever every entry has a known order and
satisfies the `AddBond` precondition. -/
lemma addBonds_total (conn : List (Nat × Nat × Nat)) :
    ∀ (numAtoms : Nat) (bonds : List RDBond),
    (∀ e ∈ conn, (_BO_DISPATCH_TABLE.lookup e.2.2).isSome
        ∧ e.1 < numAtoms ∧ e.2.1 < numAtoms ∧ e.1 ≠ e.2.1) →
    ∃ res, addBonds conn numAtoms bonds = .ok res := by
  induction conn with
  | nil => intro numAtoms bonds _; exact ⟨bonds, rfl⟩
  | cons e rest ih =>
    obtain ⟨a, b, o⟩ := e
    intro numAtoms bonds hok
    obtain ⟨hsome, hpre⟩ := hok (a, b, o) (List.mem_cons_self _ _)
    obtain ⟨bt, hbt⟩ := Option.isSome_iff_exists.mp hsome
    obtain ⟨res, hres⟩ := ih numAtoms
      (bonds ++ [{ beginAtomIdx := a, endAtomIdx := b, bondType := bt }])
      (fun t ht => hok t (List.mem_cons_of_mem _ ht))
    exact ⟨res, by simp only [addBonds, hbt, if_pos hpre]; exact hres⟩

/-- With all `AddBond` preconditions met, an entry whose order is outside the
dispatch table makes the bond loop raise a `KeyError`. -/
lemma addBonds_badOrder (conn : List (Nat × Nat × Nat)) :
    ∀ (numAtoms : Nat) (bonds : List RDBond),
    (∀ e ∈ conn, e.1 < numAtoms ∧ e.2.1 < numAtoms ∧ e.1 ≠ e.2.1) →
    (∃ e ∈ conn, _BO_DISPATCH_TABLE.lookup e.2.2 = none) →
    ∃ msg, addBonds conn numAtoms bonds = .error (.keyError msg) := by
  induction conn with
  | nil => intro _ _ _ hbad; obtain ⟨e, he, _⟩ := hbad; cases he
  | cons e rest ih =>
    obtain ⟨a, b, o⟩ := e
    intro numAtoms bonds hpre hbad
    cases hbt : _BO_DISPATCH_TABLE.lookup o with
    | none => exact ⟨toString o, by simp only [addBonds, hbt]⟩
    | some bt =>
      have hbad' : ∃ e ∈ rest, _BO_DISPATCH_TABLE.lookup e.2.2 = none := by
        obtain ⟨e', he', hnone⟩ := hbad
        rcases List.mem_cons.mp he' with heq | hmem
        · subst heq
          rw [hbt] at hnone
          cases hnone
        · exact ⟨e', hmem, hnone⟩
      obtain ⟨msg, hmsg⟩ := ih numAtoms
        (bonds ++ [{ beginAtomIdx := a, endAtomIdx := b, bondType := bt }])
        (fun t ht => hpre t (List.mem_cons_of_mem _ ht)) hbad'
      refine ⟨msg, ?_⟩
      have hp := hpre (a, b, o) (List.mem_cons_self _ _)
      simp only [addBonds, hbt, if_pos hp]
      exact hmsg

/-- A successful `mol_from_json` factors through a successful assembly and a
passing sanitization. -/
lemma mol_from_json_ok_elim {sanitizeOk : RDMol → Bool} {inp : JsonMol} {m : RDMol}
    (h : mol_from_json sanitizeOk inp = .ok m) :
    ∃ g, assembleGraph inp = .ok g ∧ sanitizeOk g.molecule = true ∧
      m = (if g.has_geometry then
            { g.molecule with conformers := g.molecule.conformers ++ [g.conformer],
                              props := g.molecule.props ++ [("_json_geometry", "1")] }
          else g.molecule) := by
  cases hag : assembleGraph inp with
  | error e =>
    simp only [mol_from_json, hag] at h
    cases h
  | ok g =>
    simp only [mol_from_json, hag] at h
    by_cases hs : sanitizeOk g.molecule = true
    · refine ⟨g, rfl, hs, ?_⟩
      rw [if_pos hs] at h
      by_cases hgm : g.has_geometry = true
      · rw [if_pos hgm] at h
        rw [if_pos hgm]
        cases h
        rfl
      · rw [if_neg hgm] at h
        rw [if_neg hgm]
        cases h
        rfl
    · rw [if_neg hs] at h
      cases h

lemma mol_from_json_ok_intro {sanitizeOk : RDMol → Bool} {inp : JsonMol} {g : AssembledGraph}
    (hag : assembleGraph inp = .ok g) (hs : sanitizeOk g.molecule = true) :
    mol_from_json sanitizeOk inp =
      .ok (if g.has_geometry then
            { g.molecule with conformers := g.molecule.conformers ++ [g.conformer],
                              props := g.molecule.props ++ [("_json_geometry", "1")] }
          else g.molecule) := by
  simp only [mol_from_json, hag, if_pos hs]
  by_cases hgm : g.has_geometry = true
  · rw [if_pos hgm, if_pos hgm]
  · rw [if_neg hgm, if_neg hgm]

lemma mol_from_json_sanitize_fail {sanitizeOk : RDMol → Bool} {inp : JsonMol}
    {g : AssembledGraph} (hag : assembleGraph inp = .ok g)
    (hs : sanitizeOk g.molecule = false) :
    mol_from_json sanitizeOk inp = .error (.runtimeError "Could not sanitize molecule") := by
  simp only [mol_from_json, hag, hs]
  rw [if_neg (by simp [hs])]

lemma mol_from_json_assemble_fail {sanitizeOk : RDMol → Bool} {inp : JsonMol} {e : PyError}
    (hag : assembleGraph inp = .error e) :
    mol_from_json sanitizeOk inp = .error e := by
  simp only [mol_from_json, hag]

/-- A successful assembly with geometry factors through the reshape check and
the two loops. -/
lemma assembleGraph_geom_elim {inp : JsonMol} {symbols : List String}
    {conn : List (Nat × Nat × Nat)} {g : List Rat} {ag : AssembledGraph}
    (hs : inp.symbols = some symbols) (hc : inp.connectivity = some conn)
    (hg : inp.geometry = some g) (h : assembleGraph inp = .ok ag) :
    g.length % 3 = 0 ∧
    ∃ atoms conformer bonds,
      buildAtoms symbols 0 [] ⟨List.replicate symbols.length ⟨0, 0, 0⟩⟩
        (some (reshapeRows (g.map (fun v => v * BOHR_2_ANGSTROM)))) = .ok (atoms, conformer) ∧
      addBonds conn atoms.length [] = .ok bonds ∧
      ag = ⟨⟨atoms, bonds, [], []⟩, true, conformer⟩ := by
  simp only [assembleGraph, hs, hc, hg] at h
  by_cases h3 : g.length % 3 = 0
  · rw [if_pos h3] at h
    refine ⟨h3, ?_⟩
    cases hba : buildAtoms symbols 0 [] ⟨List.replicate symbols.length ⟨0, 0, 0⟩⟩
        (some (reshapeRows (g.map (fun v => v * BOHR_2_ANGSTROM)))) with
    | error e => rw [hba] at h; cases h
    | ok pr =>
      obtain ⟨atoms, conformer⟩ := pr
      rw [hba] at h
      cases hab : addBonds conn atoms.length [] with
      | error e =>
        simp only [hab] at h
        cases h
      | ok bonds =>
        simp only [hab] at h
        cases h
        exact ⟨atoms, conformer, bonds, rfl, hab, rfl⟩
  · rw [if_neg h3] at h
    cases h

lemma assembleGraph_geom_intro {inp : JsonMol} {symbols : List String}
    {conn : List (Nat × Nat × Nat)} {g : List Rat} {atoms : List RDAtom}
    {conformer : RDConformer} {bonds : List RDBond}
    (hs : inp.symbols = some symbols) (hc : inp.connectivity = some conn)
    (hg : inp.geometry = some g) (h3 : g.length % 3 = 0)
    (hba : buildAtoms symbols 0 [] ⟨List.replicate symbols.length ⟨0, 0, 0⟩⟩
        (some (reshapeRows (g.map (fun v => v * BOHR_2_ANGSTROM)))) = .ok (atoms, conformer))
    (hab : addBonds conn atoms.length [] = .ok bonds) :
    assembleGraph inp = .ok ⟨⟨atoms, bonds, [], []⟩, true, conformer⟩ := by
  simp only [assembleGraph, hs, hc, hg, if_pos h3, hba, hab]

/-- A successful assembly without geometry factors through the two loops. -/
lemma assembleGraph_nogeom_elim {inp : JsonMol} {symbols : List String}
    {conn : List (Nat × Nat × Nat)} {ag : AssembledGraph}
    (hs : inp.symbols = some symbols) (hc : inp.connectivity = some conn)
    (hg : inp.geometry = none) (h : assembleGraph inp = .ok ag) :
    ∃ atoms conformer bonds,
      buildAtoms symbols 0 [] ⟨[]⟩ none = .ok (atoms, conformer) ∧
      addBonds conn atoms.length [] = .ok bonds ∧
      ag = ⟨⟨atoms, bonds, [], []⟩, false, conformer⟩ := by
  simp only [assembleGraph, hs, hc, hg] at h
  cases hba : buildAtoms symbols 0 [] ⟨[]⟩ none with
  | error e => rw [hba] at h; cases h
  | ok pr =>
    obtain ⟨atoms, conformer⟩ := pr
    rw [hba] at h
    cases hab : addBonds conn atoms.length [] with
    | error e =>
      simp only [hab] at h
      cases h
    | ok bonds =>
      simp only [hab] at h
      cases h
      exact ⟨atoms, conformer, bonds, rfl, hab, rfl⟩

lemma assembleGraph_nogeom_intro {inp : JsonMol} {symbols : List String}
    {conn : List (Nat × Nat × Nat)} {atoms : List RDAtom}
    {conformer : RDConformer} {bonds : List RDBond}
    (hs : inp.symbols = some symbols) (hc : inp.connectivity = some conn)
    (hg : inp.geometry = none)
    (hba : buildAtoms symbols 0 [] ⟨[]⟩ none = .ok (atoms, conformer))
    (hab : addBonds conn atoms.length [] = .ok bonds) :
    assembleGraph inp = .ok ⟨⟨atoms, bonds, [], []⟩, false, conformer⟩ := by
  simp only [assembleGraph, hs, hc, hg, hba, hab]

lemma assembleGraph_geom_not_mult3 {inp : JsonMol} {symbols : List String}
    {conn : List (Nat × Nat × Nat)} {g : List Rat}
    (hs : inp.symbols = some symbols) (hc : inp.connectivity = some conn)
    (hg : inp.geometry = some g) (h3 : g.length % 3 ≠ 0) :
    assembleGraph inp = .error (.valueError "cannot reshape array") := by
  simp only [assembleGraph, hs, hc, hg, if_neg h3]

lemma assembleGraph_geom_buildAtoms_err {inp : JsonMol} {symbols : List String}
    {conn : List (Nat × Nat × Nat)} {g : List Rat} {e : PyError}
    (hs : inp.symbols = some symbols) (hc : inp.connectivity = some conn)
    (hg : inp.geometry = some g) (h3 : g.length % 3 = 0)
    (hba : buildAtoms symbols 0 [] ⟨List.replicate symbols.length ⟨0, 0, 0⟩⟩
        (some (reshapeRows (g.map (fun v => v * BOHR_2_ANGSTROM)))) = .error e) :
    assembleGraph inp = .error e := by
  simp only [assembleGraph, hs, hc, hg, if_pos h3, hba]

lemma assembleGraph_geom_addBonds_err {inp : JsonMol} {symbols : List String}
    {conn : List (Nat × Nat × Nat)} {g : List Rat} {atoms : List RDAtom}
    {conformer : RDConformer} {e : PyError}
    (hs : inp.symbols = some symbols) (hc : inp.connectivity = some conn)
    (hg : inp.geometry = some g) (h3 : g.length % 3 = 0)
    (hba : buildAtoms symbols 0 [] ⟨List.replicate symbols.length ⟨0, 0, 0⟩⟩
        (some (reshapeRows (g.map (fun v => v * BOHR_2_ANGSTROM)))) = .ok (atoms, conformer))
    (hab : addBonds conn atoms.length [] = .error e) :
    assembleGraph inp = .error e := by
  simp only [assembleGraph, hs, hc, hg, if_pos h3, hba, hab]

lemma assembleGraph_nogeom_addBonds_err {inp : JsonMol} {symbols : List String}
    {conn : List (Nat × Nat × Nat)} {atoms : List RDAtom}
    {conformer : RDConformer} {e : PyError}
    (hs : inp.symbols = some symbols) (hc : inp.connectivity = some conn)
    (hg : inp.geometry = none)
    (hba : buildAtoms symbols 0 [] ⟨[]⟩ none = .ok (atoms, conformer))
    (hab : addBonds conn atoms.length [] = .error e) :
    assembleGraph inp = .error e := by
  simp only [assembleGraph, hs, hc, hg, hba, hab]

lemma assembleGraph_no_symbols {inp : JsonMol} (hs : inp.symbols = none) :
    assembleGraph inp = .error (.keyError "symbols") := by
  simp only [assembleGraph, hs]

lemma assembleGraph_no_connectivity {inp : JsonMol} {symbols : List String}
    (hs : inp.symbols = some symbols) (hc : inp.connectivity = none) :
    assembleGraph inp = .error (.keyError "connectivity") := by
  simp only [assembleGraph, hs, hc]

/-- C1. `mol_from_json` either returns a molecule or raises; whenever the
graph assembles but sanitization fails, it raises exactly
`RuntimeError("Could not sanitize molecule")`; and every molecule it returns
passed sanitization (no partially built molecule escapes). -/
theorem mol_from_json_total_or_raises (sanitizeOk : RDMol → Bool) (inp : JsonMol) :
    ((∃ m, mol_from_json sanitizeOk inp = .ok m) ∨
      (∃ e, mol_from_json sanitizeOk inp = .error e)) ∧
    (∀ g, assembleGraph inp = .ok g → sanitizeOk g.molecule = false →
      mol_from_json sanitizeOk inp = .error (.runtimeError "Could not sanitize molecule")) ∧
    (∀ m, mol_from_json sanitizeOk inp = .ok m →
      ∃ g, assembleGraph inp = .ok g ∧ sanitizeOk g.molecule = true) := by
  refine ⟨?_, ?_, ?_⟩
  · cases h : mol_from_json sanitizeOk inp with
    | ok m => exact .inl ⟨m, rfl⟩
    | error e => exact .inr ⟨e, rfl⟩
  · intro g hag hsf
    exact mol_from_json_sanitize_fail hag hsf
  · intro m h
    obtain ⟨g, hag, hsOk, _⟩ := mol_from_json_ok_elim h
    exact ⟨g, hag, hsOk⟩

/-- Witness for C1: a one-oxygen molecule whose sanitization is made to fail. -/
theorem mol_from_json_total_or_raises_witness :
    mol_from_json (fun _ => false) ⟨some ["O"], some [], none⟩ =
      .error (.runtimeError "Could not sanitize molecule") :=
  (mol_from_json_total_or_raises (fun _ => false) ⟨some ["O"], some [], none⟩).2.1
    ⟨⟨[⟨8, 0⟩], [], [], []⟩, false, ⟨[]⟩⟩ rfl rfl

/-- C2. On an input with `symbols` and a geometry of length
`3 * len(symbols)`, a returned molecule has its i-th atom built from element
`symbols[i]` (atomic number `_symbols[symbols[i]]`, fresh map number 0), and
the conformer position of atom i is `(geometry[3i], geometry[3i+1],
geometry[3i+2])`, each coordinate multiplied by `BOHR_2_ANGSTROM`. -/
theorem mol_from_json_atoms_and_positions (sanitizeOk : RDMol → Bool) (inp : JsonMol)
    (symbols : List String) (geometry : List Rat) (m : RDMol)
    (hs : inp.symbols = some symbols) (hg : inp.geometry = some geometry)
    (hlen : geometry.length = 3 * symbols.length)
    (hok : mol_from_json sanitizeOk inp = .ok m) :
    m.atoms.length = symbols.length ∧
    ∃ conf, m.conformers = [conf] ∧
      ∀ i (hi : i < symbols.length),
        (∃ z, _symbols.lookup (symbols.get ⟨i, hi⟩) = some z ∧ m.atoms[i]? = some ⟨z, 0⟩) ∧
        (∃ x y w, geometry[3 * i]? = some x ∧ geometry[3 * i + 1]? = some y ∧
          geometry[3 * i + 2]? = some w ∧
          conf.positions[i]? =
            some ⟨x * BOHR_2_ANGSTROM, y * BOHR_2_ANGSTROM, w * BOHR_2_ANGSTROM⟩) := by
  obtain ⟨g, hag, hsOk, hm⟩ := mol_from_json_ok_elim hok
  cases hc : inp.connectivity with
  | none => rw [assembleGraph_no_connectivity hs hc] at hag; cases hag
  | some conn =>
    obtain ⟨h3, atoms, conformer, bonds, hba, hab, hageq⟩ :=
      assembleGraph_geom_elim hs hc hg hag
    subst hageq
    have hm' : m = { atoms := atoms, bonds := bonds, conformers := [conformer],
                     props := [("_json_geometry", "1")] } := by
      simpa using hm
    subst hm'
    obtain ⟨ba1, ba2, ba3, ba4, ba5⟩ := buildAtoms_some_ok symbols 0 []
      ⟨List.replicate symbols.length ⟨0, 0, 0⟩⟩
      (reshapeRows (geometry.map (fun v => v * BOHR_2_ANGSTROM))) atoms conformer hba
    refine ⟨by simpa using ba1, conformer, rfl, ?_⟩
    intro i hi
    constructor
    · obtain ⟨z, hz, hget⟩ := ba3 i hi
      exact ⟨z, hz, by simpa using hget⟩
    · have hk := ba5 i
      rw [if_pos ⟨Nat.zero_le i, by omega⟩] at hk
      rw [if_pos (show i < (RDConformer.mk
          (List.replicate symbols.length ⟨0, 0, 0⟩)).positions.length by
        simp only [List.length_replicate]
        omega)] at hk
      have h0 : 3 * i < geometry.length := by omega
      have h1 : 3 * i + 1 < geometry.length := by omega
      have h2 : 3 * i + 2 < geometry.length := by omega
      have hx : geometry[3 * i]? = some (geometry.get ⟨3 * i, h0⟩) :=
        List.getElem?_eq_some.mpr ⟨h0, rfl⟩
      have hy : geometry[3 * i + 1]? = some (geometry.get ⟨3 * i + 1, h1⟩) :=
        List.getElem?_eq_some.mpr ⟨h1, rfl⟩
      have hw : geometry[3 * i + 2]? = some (geometry.get ⟨3 * i + 2, h2⟩) :=
        List.getElem?_eq_some.mpr ⟨h2, rfl⟩
      refine ⟨geometry.get ⟨3 * i, h0⟩, geometry.get ⟨3 * i + 1, h1⟩,
        geometry.get ⟨3 * i + 2, h2⟩, hx, hy, hw, ?_⟩
      rw [hk, reshapeRows_getElem?, List.getElem?_map, List.getElem?_map, List.getElem?_map,
        hx, hy, hw]
      rfl

/-- Witness for C2: a single oxygen atom at Bohr coordinates (1, 2, 3). -/
theorem mol_from_json_atoms_and_positions_witness :
    ∃ m, mol_from_json (fun _ => true) ⟨some ["O"], some [], some [1, 2, 3]⟩ = .ok m ∧
      (m.atoms.length = 1 ∧
        ∃ conf, m.conformers = [conf] ∧
          ∀ i (hi : i < (["O"] : List String).length),
            (∃ z, _symbols.lookup ((["O"] : List String).get ⟨i, hi⟩) = some z ∧
              m.atoms[i]? = some ⟨z, 0⟩) ∧
            (∃ x y w, (([1, 2, 3] : List Rat))[3 * i]? = some x ∧
              (([1, 2, 3] : List Rat))[3 * i + 1]? = some y ∧
              (([1, 2, 3] : List Rat))[3 * i + 2]? = some w ∧
              conf.positions[i]? =
                some ⟨x * BOHR_2_ANGSTROM, y * BOHR_2_ANGSTROM, w * BOHR_2_ANGSTROM⟩)) := by
  refine ⟨{ atoms := [⟨8, 0⟩], bonds := [],
            conformers := [⟨[⟨1 * BOHR_2_ANGSTROM, 2 * BOHR_2_ANGSTROM, 3 * BOHR_2_ANGSTROM⟩]⟩],
            props := [("_json_geometry", "1")] }, rfl, ?_⟩
  exact mol_from_json_atoms_and_positions (fun _ => true)
    ⟨some ["O"], some [], some [1, 2, 3]⟩ ["O"] [1, 2, 3] _ rfl rfl (by decide) rfl

lemma bo_lookup_some_cases {o : Nat} {bt : BondType}
    (h : _BO_DISPATCH_TABLE.lookup o = some bt) :
    (o = 1 ∧ bt = .SINGLE) ∨ (o = 2 ∧ bt = .DOUBLE) ∨ (o = 3 ∧ bt = .TRIPLE) := by
  rw [bo_lookup_eq] at h
  by_cases h1 : o = 1
  · rw [if_pos h1] at h
    cases h
    exact .inl ⟨h1, rfl⟩
  · rw [if_neg h1] at h
    by_cases h2 : o = 2
    · rw [if_pos h2] at h
      cases h
      exact .inr (.inl ⟨h2, rfl⟩)
    · rw [if_neg h2] at h
      by_cases h3 : o = 3
      · rw [if_pos h3] at h
        cases h
        exact .inr (.inr ⟨h3, rfl⟩)
      · rw [if_neg h3] at h
        cases h

lemma bo_lookup_none {o : Nat} (h1 : o ≠ 1) (h2 : o ≠ 2) (h3 : o ≠ 3) :
    _BO_DISPATCH_TABLE.lookup o = none := by
  rw [bo_lookup_eq, if_neg h1, if_neg h2, if_neg h3]

/-- C3. Every connectivity entry `[a, b, o]` contributes exactly one bond
between atoms `a` and `b`, with type SINGLE for o = 1, DOUBLE for o = 2,
TRIPLE for o = 3; an entry with any other order makes `mol_from_json` raise
the `KeyError` of the unguarded `_BO_DISPATCH_TABLE` lookup. -/
theorem mol_from_json_bond_dispatch (sanitizeOk : RDMol → Bool) (inp : JsonMol)
    (symbols : List String) (conn : List (Nat × Nat × Nat))
    (hs : inp.symbols = some symbols) (hc : inp.connectivity = some conn) :
    (∀ m, mol_from_json sanitizeOk inp = .ok m →
      m.bonds.length = conn.length ∧
      ∀ j (hj : j < conn.length),
        ∃ bt, m.bonds[j]? = some ⟨(conn.get ⟨j, hj⟩).1, (conn.get ⟨j, hj⟩).2.1, bt⟩ ∧
          ((conn.get ⟨j, hj⟩).2.2 = 1 → bt = .SINGLE) ∧
          ((conn.get ⟨j, hj⟩).2.2 = 2 → bt = .DOUBLE) ∧
          ((conn.get ⟨j, hj⟩).2.2 = 3 → bt = .TRIPLE) ∧
          ((conn.get ⟨j, hj⟩).2.2 = 1 ∨ (conn.get ⟨j, hj⟩).2.2 = 2 ∨
            (conn.get ⟨j, hj⟩).2.2 = 3)) ∧
    ((∀ s ∈ symbols, (_symbols.lookup s).isSome) →
      (∀ e ∈ conn, e.1 < symbols.length ∧ e.2.1 < symbols.length ∧ e.1 ≠ e.2.1) →
      (inp.geometry = none ∨ ∃ g, inp.geometry = some g ∧ g.length = 3 * symbols.length) →
      (∃ e ∈ conn, e.2.2 ≠ 1 ∧ e.2.2 ≠ 2 ∧ e.2.2 ≠ 3) →
      ∃ msg, mol_from_json sanitizeOk inp = .error (.keyError msg)) := by
  constructor
  · intro m hok
    obtain ⟨g, hag, hsOk, hm⟩ := mol_from_json_ok_elim hok
    have hbonds : ∃ atoms bonds, addBonds conn atoms [] = .ok bonds ∧ m.bonds = bonds := by
      cases hgm : inp.geometry with
      | some gl =>
        obtain ⟨h3, atoms, conformer, bonds, hba, hab, hageq⟩ :=
          assembleGraph_geom_elim hs hc hgm hag
        subst hageq
        refine ⟨atoms.length, bonds, hab, ?_⟩
        rw [hm]
        rfl
      | none =>
        obtain ⟨atoms, conformer, bonds, hba, hab, hageq⟩ :=
          assembleGraph_nogeom_elim hs hc hgm hag
        subst hageq
        refine ⟨atoms.length, bonds, hab, ?_⟩
        rw [hm]
        rfl
    obtain ⟨numAtoms, bonds, hab, hmb⟩ := hbonds
    obtain ⟨ab1, ab2, ab3⟩ := addBonds_ok conn numAtoms [] bonds hab
    constructor
    · rw [hmb]
      simpa using ab1
    · intro j hj
      obtain ⟨bt, hbt, hget, _⟩ := ab3 j hj
      refine ⟨bt, by rw [hmb]; simpa using hget, ?_, ?_, ?_, ?_⟩
      · intro ho
        rcases bo_lookup_some_cases hbt with ⟨h, hb⟩ | ⟨h, hb⟩ | ⟨h, hb⟩ <;>
          first | exact hb | omega
      · intro ho
        rcases bo_lookup_some_cases hbt with ⟨h, hb⟩ | ⟨h, hb⟩ | ⟨h, hb⟩ <;>
          first | exact hb | omega
      · intro ho
        rcases bo_lookup_some_cases hbt with ⟨h, hb⟩ | ⟨h, hb⟩ | ⟨h, hb⟩ <;>
          first | exact hb | omega
      · rcases bo_lookup_some_cases hbt with ⟨h, _⟩ | ⟨h, _⟩ | ⟨h, _⟩
        · exact .inl h
        · exact .inr (.inl h)
        · exact .inr (.inr h)
  · intro hsym hidx hgeom hbad
    have hbadlookup : ∃ e ∈ conn, _BO_DISPATCH_TABLE.lookup e.2.2 = none := by
      obtain ⟨e, he, h1, h2, h3⟩ := hbad
      exact ⟨e, he, bo_lookup_none h1 h2 h3⟩
    cases hgeom with
    | inl hgnone =>
      obtain ⟨⟨atoms, conformer⟩, hba⟩ := buildAtoms_none_total symbols 0 [] ⟨[]⟩ hsym
      obtain ⟨ba1, _, _, _⟩ := buildAtoms_none_ok symbols 0 [] ⟨[]⟩ atoms conformer hba
      have hlen : atoms.length = symbols.length := by simpa using ba1
      obtain ⟨msg, hab⟩ := addBonds_badOrder conn atoms.length []
        (fun e he => by rw [hlen]; exact hidx e he) hbadlookup
      exact ⟨msg, mol_from_json_assemble_fail
        (assembleGraph_nogeom_addBonds_err hs hc hgnone hba hab)⟩
    | inr hg =>
      obtain ⟨gl, hgl, hglen⟩ := hg
      have h3 : gl.length % 3 = 0 := by omega
      have hrows : (reshapeRows (gl.map (fun v => v * BOHR_2_ANGSTROM))).length
          = symbols.length := by
        rw [reshapeRows_length, List.length_map]
        omega
      obtain ⟨⟨atoms, conformer⟩, hba⟩ := buildAtoms_some_total symbols 0 []
        ⟨List.replicate symbols.length ⟨0, 0, 0⟩⟩
        (reshapeRows (gl.map (fun v => v * BOHR_2_ANGSTROM))) hsym (by omega)
      obtain ⟨ba1, _, _, _, _⟩ := buildAtoms_some_ok symbols 0 []
        ⟨List.replicate symbols.length ⟨0, 0, 0⟩⟩ _ atoms conformer hba
      have hlen : atoms.length = symbols.length := by simpa using ba1
      obtain ⟨msg, hab⟩ := addBonds_badOrder conn atoms.length []
        (fun e he => by rw [hlen]; exact hidx e he) hbadlookup
      exact ⟨msg, mol_from_json_assemble_fail
        (assembleGraph_geom_addBonds_err hs hc hgl h3 hba hab)⟩

/-- Witness for C3: ethene-like input with one double bond. -/
theorem mol_from_json_bond_dispatch_witness :
    (⟨[⟨6, 0⟩, ⟨6, 0⟩], [⟨0, 1, BondType.DOUBLE⟩], [], []⟩ : RDMol).bonds.length
        = ([(0, 1, 2)] : List (Nat × Nat × Nat)).length ∧
    ∀ j (hj : j < ([(0, 1, 2)] : List (Nat × Nat × Nat)).length),
      ∃ bt, (⟨[⟨6, 0⟩, ⟨6, 0⟩], [⟨0, 1, BondType.DOUBLE⟩], [], []⟩ : RDMol).bonds[j]? =
          some ⟨(([(0, 1, 2)] : List (Nat × Nat × Nat)).get ⟨j, hj⟩).1,
                (([(0, 1, 2)] : List (Nat × Nat × Nat)).get ⟨j, hj⟩).2.1, bt⟩ ∧
        ((([(0, 1, 2)] : List (Nat × Nat × Nat)).get ⟨j, hj⟩).2.2 = 1 → bt = .SINGLE) ∧
        ((([(0, 1, 2)] : List (Nat × Nat × Nat)).get ⟨j, hj⟩).2.2 = 2 → bt = .DOUBLE) ∧
        ((([(0, 1, 2)] : List (Nat × Nat × Nat)).get ⟨j, hj⟩).2.2 = 3 → bt = .TRIPLE) ∧
        ((([(0, 1, 2)] : List (Nat × Nat × Nat)).get ⟨j, hj⟩).2.2 = 1 ∨
          (([(0, 1, 2)] : List (Nat × Nat × Nat)).get ⟨j, hj⟩).2.2 = 2 ∨
          (([(0, 1, 2)] : List (Nat × Nat × Nat)).get ⟨j, hj⟩).2.2 = 3) :=
  (mol_from_json_bond_dispatch (fun _ => true)
      ⟨some ["C", "C"], some [(0, 1, 2)], none⟩ ["C", "C"] [(0, 1, 2)] rfl rfl).1
    ⟨[⟨6, 0⟩, ⟨6, 0⟩], [⟨0, 1, BondType.DOUBLE⟩], [], []⟩ rfl

/-- C5. A molecule returned by `mol_from_json` carries the string property
`"_json_geometry" = '1'` iff the input had a `geometry` key; with no geometry,
no conformer is added and no property is set. -/
theorem mol_from_json_geometry_tag (sanitizeOk : RDMol → Bool) (inp : JsonMol) (m : RDMol)
    (hok : mol_from_json sanitizeOk inp = .ok m) :
    ((("_json_geometry", "1") ∈ m.props) ↔ inp.geometry.isSome = true) ∧
    (inp.geometry = none → m.conformers = [] ∧ m.props = []) := by
  obtain ⟨g, hag, hsOk, hm⟩ := mol_from_json_ok_elim hok
  cases hs : inp.symbols with
  | none => rw [assembleGraph_no_symbols hs] at hag; cases hag
  | some symbols =>
    cases hc : inp.connectivity with
    | none => rw [assembleGraph_no_connectivity hs hc] at hag; cases hag
    | some conn =>
      cases hgm : inp.geometry with
      | some gl =>
        obtain ⟨h3, atoms, conformer, bonds, hba, hab, hageq⟩ :=
          assembleGraph_geom_elim hs hc hgm hag
        subst hageq
        have hm' : m = { atoms := atoms, bonds := bonds, conformers := [conformer],
                         props := [("_json_geometry", "1")] } := by
          simpa using hm
        subst hm'
        constructor
        · simp
        · intro hnone
          cases hnone
      | none =>
        obtain ⟨atoms, conformer, bonds, hba, hab, hageq⟩ :=
          assembleGraph_nogeom_elim hs hc hgm hag
        subst hageq
        have hm' : m = { atoms := atoms, bonds := bonds, conformers := [], props := [] } := by
          simpa using hm
        subst hm'
        constructor
        · simp
        · intro _
          exact ⟨rfl, rfl⟩

/-- Witness for C5: the tag appears exactly when a geometry was given. -/
theorem mol_from_json_geometry_tag_witness :
    ((("_json_geometry", "1") ∈
        ({ atoms := [⟨8, 0⟩], bonds := [],
           conformers := [⟨[⟨1 * BOHR_2_ANGSTROM, 2 * BOHR_2_ANGSTROM,
             3 * BOHR_2_ANGSTROM⟩]⟩],
           props := [("_json_geometry", "1")] } : RDMol).props) ↔
      (⟨some ["O"], some [], some [1, 2, 3]⟩ : JsonMol).geometry.isSome = true) ∧
    ((⟨some ["O"], some [], some [1, 2, 3]⟩ : JsonMol).geometry = none →
      ({ atoms := [⟨8, 0⟩], bonds := [],
         conformers := [⟨[⟨1 * BOHR_2_ANGSTROM, 2 * BOHR_2_ANGSTROM,
           3 * BOHR_2_ANGSTROM⟩]⟩],
         props := [("_json_geometry", "1")] } : RDMol).conformers = [] ∧
      ({ atoms := [⟨8, 0⟩], bonds := [],
         conformers := [⟨[⟨1 * BOHR_2_ANGSTROM, 2 * BOHR_2_ANGSTROM,
           3 * BOHR_2_ANGSTROM⟩]⟩],
         props := [("_json_geometry", "1")] } : RDMol).props = []) :=
  mol_from_json_geometry_tag (fun _ => true) ⟨some ["O"], some [], some [1, 2, 3]⟩ _ rfl

/-- The atom loop reads only the geometry rows of the atoms it scans. -/
lemma buildAtoms_some_congr (symbols : List String) :
    ∀ (i : Nat) (atoms : List RDAtom) (conf : RDConformer) (rows rowsNew : List Point3D),
    (∀ k, i ≤ k → k < i + symbols.length → rows[k]? = rowsNew[k]?) →
    buildAtoms symbols i atoms conf (some rows)
      = buildAtoms symbols i atoms conf (some rowsNew) := by
  induction symbols with
  | nil => intro i atoms conf rows rowsNew _; rfl
  | cons s rest ih =>
    intro i atoms conf rows rowsNew hag
    have hi : rows[i]? = rowsNew[i]? := hag i le_rfl (by simp)
    simp only [buildAtoms, hi]
    cases hz : _symbols.lookup s with
    | none => rfl
    | some z =>
      cases hp : rowsNew[i]? with
      | none => rfl
      | some p =>
        exact ih (i + 1) (atoms ++ [⟨z, 0⟩]) ⟨conf.positions.set i p⟩ rows rowsNew
          (fun k hk1 hk2 => hag k (by omega) (by simp at hk2 ⊢; omega))

/-- C9. `mol_from_json` never checks that the geometry has exactly
`3 * len(symbols)` entries: any geometry with a multiple-of-3 length at least
that long succeeds, with the surplus coordinates silently ignored (the result
is the same as for the truncated geometry); a multiple-of-3 geometry that is
too short raises the `IndexError` of the out-of-range row access instead. -/
theorem mol_from_json_geometry_length_unchecked (sanitizeOk : RDMol → Bool) (inp : JsonMol)
    (symbols : List String) (conn : List (Nat × Nat × Nat)) (g : List Rat)
    (hs : inp.symbols = some symbols) (hc : inp.connectivity = some conn)
    (hg : inp.geometry = some g)
    (hsym : ∀ s ∈ symbols, (_symbols.lookup s).isSome)
    (hconn : ∀ e ∈ conn, (_BO_DISPATCH_TABLE.lookup e.2.2).isSome ∧
      e.1 < symbols.length ∧ e.2.1 < symbols.length ∧ e.1 ≠ e.2.1)
    (hsan : ∀ mol, sanitizeOk mol = true) :
    (g.length % 3 = 0 → 3 * symbols.length ≤ g.length →
      ∃ m, mol_from_json sanitizeOk inp = .ok m ∧
        mol_from_json sanitizeOk { inp with geometry := some (g.take (3 * symbols.length)) }
          = .ok m) ∧
    (g.length % 3 = 0 → g.length < 3 * symbols.length →
      mol_from_json sanitizeOk inp = .error (.indexError "index out of bounds")) := by
  constructor
  · intro h3 hge
    have hrowlen : (reshapeRows (g.map (fun v => v * BOHR_2_ANGSTROM))).length
        = g.length / 3 := by
      rw [reshapeRows_length, List.length_map]
    obtain ⟨⟨atoms, conformer⟩, hba⟩ := buildAtoms_some_total symbols 0 []
      ⟨List.replicate symbols.length ⟨0, 0, 0⟩⟩
      (reshapeRows (g.map (fun v => v * BOHR_2_ANGSTROM))) hsym (by omega)
    obtain ⟨ba1, _, _, _, _⟩ := buildAtoms_some_ok symbols 0 []
      ⟨List.replicate symbols.length ⟨0, 0, 0⟩⟩ _ atoms conformer hba
    have hlenAtoms : atoms.length = symbols.length := by simpa using ba1
    obtain ⟨bonds, hab⟩ := addBonds_total conn atoms.length []
      (fun e he => by rw [hlenAtoms]; exact hconn e he)
    have hag := assembleGraph_geom_intro hs hc hg h3 hba hab
    have hlen' : (g.take (3 * symbols.length)).length = 3 * symbols.length := by
      rw [List.length_take]
      omega
    have hagree : ∀ k, 0 ≤ k → k < 0 + symbols.length →
        (reshapeRows (g.map (fun v => v * BOHR_2_ANGSTROM)))[k]?
          = (reshapeRows ((g.take (3 * symbols.length)).map
              (fun v => v * BOHR_2_ANGSTROM)))[k]? := by
      intro k _ hk
      have e0 : (g.take (3 * symbols.length))[3 * k]? = g[3 * k]? :=
        List.getElem?_take_of_lt (by omega)
      have e1 : (g.take (3 * symbols.length))[3 * k + 1]? = g[3 * k + 1]? :=
        List.getElem?_take_of_lt (by omega)
      have e2 : (g.take (3 * symbols.length))[3 * k + 2]? = g[3 * k + 2]? :=
        List.getElem?_take_of_lt (by omega)
      rw [reshapeRows_getElem?, reshapeRows_getElem?]
      simp only [List.getElem?_map, e0, e1, e2]
    have hba' : buildAtoms symbols 0 [] ⟨List.replicate symbols.length ⟨0, 0, 0⟩⟩
        (some (reshapeRows ((g.take (3 * symbols.length)).map
          (fun v => v * BOHR_2_ANGSTROM)))) = .ok (atoms, conformer) := by
      rw [← buildAtoms_some_congr symbols 0 [] ⟨List.replicate symbols.length ⟨0, 0, 0⟩⟩
        _ _ hagree]
      exact hba
    have hag' : assembleGraph { inp with geometry := some (g.take (3 * symbols.length)) }
        = .ok ⟨⟨atoms, bonds, [], []⟩, true, conformer⟩ :=
      assembleGraph_geom_intro (by simpa using hs) (by simpa using hc) rfl (by omega) hba' hab
    exact ⟨_, mol_from_json_ok_intro hag (hsan _), mol_from_json_ok_intro hag' (hsan _)⟩
  · intro h3 hlt
    have hba := buildAtoms_some_short symbols 0 []
      ⟨List.replicate symbols.length ⟨0, 0, 0⟩⟩
      (reshapeRows (g.map (fun v => v * BOHR_2_ANGSTROM))) hsym (Nat.zero_le _)
      (by rw [reshapeRows_length, List.length_map]; omega)
    exact mol_from_json_assemble_fail (assembleGraph_geom_buildAtoms_err hs hc hg h3 hba)

/-- Witness for C9: one oxygen with six Bohr coordinates; the last three are
ignored and the result matches the truncated input. -/
theorem mol_from_json_geometry_length_unchecked_witness :
    ∃ m, mol_from_json (fun _ => true)
        ⟨some ["O"], some [], some [1, 2, 3, 4, 5, 6]⟩ = .ok m ∧
      mol_from_json (fun _ => true)
        { (⟨some ["O"], some [], some [1, 2, 3, 4, 5, 6]⟩ : JsonMol) with
          geometry := some (([1, 2, 3, 4, 5, 6] : List Rat).take
            (3 * (["O"] : List String).length)) } = .ok m :=
  (mol_from_json_geometry_length_unchecked (fun _ => true)
      ⟨some ["O"], some [], some [1, 2, 3, 4, 5, 6]⟩ ["O"] [] [1, 2, 3, 4, 5, 6]
      rfl rfl rfl (by decide) (by decide) (fun _ => rfl)).1 (by decide) (by decide)

/-- C10. With `copy=True` (the default) `generate_conformers` never
mutates the input molecule: the caller's object is unchanged and the value
returned is the conformer run applied to a fresh copy; with `copy=False` the
input molecule itself is mutated and, on success, is the value returned. -/
theorem generate_conformers_copy_semantics (omegaRun : OEMol → OEMol × Bool)
    (molecule : OEMol) :
    ((generate_conformers omegaRun molecule true).inputFinal = molecule ∧
      ((omegaRun molecule).2 = true →
        (generate_conformers omegaRun molecule true).returned
          = .ok ((omegaRun molecule).1))) ∧
    ((generate_conformers omegaRun molecule false).inputFinal = (omegaRun molecule).1 ∧
      ((omegaRun molecule).2 = true →
        (generate_conformers omegaRun molecule false).returned
          = .ok ((generate_conformers omegaRun molecule false).inputFinal))) := by
  refine ⟨⟨rfl, fun h => ?_⟩, ⟨rfl, fun h => ?_⟩⟩
  · simp [generate_conformers, h]
  · simp [generate_conformers, h]

/-- Witness for C10 with an always-succeeding conformer run. -/
theorem generate_conformers_copy_semantics_witness :
    ((generate_conformers (fun _ => (⟨[⟨6, 0⟩]⟩, true)) ⟨[]⟩ true).inputFinal = ⟨[]⟩ ∧
      (generate_conformers (fun _ => (⟨[⟨6, 0⟩]⟩, true)) ⟨[]⟩ true).returned
        = .ok ⟨[⟨6, 0⟩]⟩) ∧
    ((generate_conformers (fun _ => (⟨[⟨6, 0⟩]⟩, true)) ⟨[]⟩ false).inputFinal
        = ⟨[⟨6, 0⟩]⟩ ∧
      (generate_conformers (fun _ => (⟨[⟨6, 0⟩]⟩, true)) ⟨[]⟩ false).returned
        = .ok ((generate_conformers (fun _ => (⟨[⟨6, 0⟩]⟩, true)) ⟨[]⟩ false).inputFinal)) := by
  have h := generate_conformers_copy_semantics (fun _ => (⟨[⟨6, 0⟩]⟩, true)) ⟨[]⟩
  exact ⟨⟨h.1.1, h.1.2 rfl⟩, ⟨h.2.1, h.2.2 rfl⟩⟩

/-- C4. `load_molecule` dispatches on input type and backend: every dict
goes to `mol_from_json` regardless of backend; a non-dict input with
backend `'rdkit'` goes to `_load_mol_rd` (`RuntimeError` when RDKit is
missing), with `'openeye'` to `_load_mol_oe` (`RuntimeError` when OpenEye is
missing), and any other backend string raises `RuntimeError`. -/
theorem load_molecule_dispatch (tkRd : RdToolkit) (tkOe : OeToolkit)
    (sanitizeOk : RDMol → Bool) (has_rdkit has_openeye : Bool) :
    (∀ j backend,
      load_molecule tkRd tkOe sanitizeOk has_rdkit has_openeye (.json j) backend
        = (mol_from_json sanitizeOk j).map (fun m => .rdVal (some m))) ∧
    (∀ inp : InpMolecule, (∀ j, inp ≠ .json j) →
      (load_molecule tkRd tkOe sanitizeOk has_rdkit has_openeye inp "rdkit"
        = if has_rdkit then (_load_mol_rd tkRd has_openeye inp).map .rdVal
          else .error (.runtimeError
            "You need to have RDKit installed to use the RDKit backend")) ∧
      (load_molecule tkRd tkOe sanitizeOk has_rdkit has_openeye inp "openeye"
        = if has_openeye then (_load_mol_oe tkOe has_rdkit inp).map .oeVal
          else .error (.runtimeError
            "You need to have OpenEye installed or an up-to-date license to use the openeye backend")) ∧
      (∀ backend, backend ≠ "rdkit" → backend ≠ "openeye" →
        load_molecule tkRd tkOe sanitizeOk has_rdkit has_openeye inp backend
          = .error (.runtimeError "You must have either RDKit or OpenEye installed"))) := by
  constructor
  · intro j backend
    simp only [load_molecule]
    cases hm : mol_from_json sanitizeOk j <;> simp [Except.map]
  · intro inp hnj
    have hrd : ∀ inp' : InpMolecule,
        (if has_rdkit then
          match _load_mol_rd tkRd has_openeye inp' with
          | .error e => .error e
          | .ok m => .ok (.rdVal m)
        else .error (.runtimeError
          "You need to have RDKit installed to use the RDKit backend"))
        = (if has_rdkit then (_load_mol_rd tkRd has_openeye inp').map PyMolValue.rdVal
          else .error (.runtimeError
            "You need to have RDKit installed to use the RDKit backend")) := by
      intro inp'
      cases has_rdkit with
      | false => rfl
      | true =>
        simp only [if_pos]
        cases _load_mol_rd tkRd has_openeye inp' <;> simp [Except.map]
    have hoe : ∀ inp' : InpMolecule,
        (if has_openeye then
          match _load_mol_oe tkOe has_rdkit inp' with
          | .error e => .error e
          | .ok m => .ok (.oeVal m)
        else .error (.runtimeError
          "You need to have OpenEye installed or an up-to-date license to use the openeye backend"))
        = (if has_openeye then (_load_mol_oe tkOe has_rdkit inp').map PyMolValue.oeVal
          else .error (.runtimeError
            "You need to have OpenEye installed or an up-to-date license to use the openeye backend")) := by
      intro inp'
      cases has_openeye with
      | false => rfl
      | true =>
        simp only [if_pos]
        cases _load_mol_oe tkOe has_rdkit inp' <;> simp [Except.map]
    cases inp with
    | json j => exact absurd rfl (hnj j)
    | str s =>
      refine ⟨?_, ?_, ?_⟩
      · simp only [load_molecule, if_pos rfl]
        exact hrd (.str s)
      · simp only [load_molecule]
        rw [if_neg (by decide)]
        rw [if_pos (by trivial)]
        exact hoe (.str s)
      · intro backend hb1 hb2
        simp only [load_molecule]
        rw [if_neg (by simpa using hb1), if_neg (by simpa using hb2)]
    | rdMol m =>
      refine ⟨?_, ?_, ?_⟩
      · simp only [load_molecule, if_pos rfl]
        exact hrd (.rdMol m)
      · simp only [load_molecule]
        rw [if_neg (by decide)]
        rw [if_pos (by trivial)]
        exact hoe (.rdMol m)
      · intro backend hb1 hb2
        simp only [load_molecule]
        rw [if_neg (by simpa using hb1), if_neg (by simpa using hb2)]
    | oeMol m =>
      refine ⟨?_, ?_, ?_⟩
      · simp only [load_molecule, if_pos rfl]
        exact hrd (.oeMol m)
      · simp only [load_molecule]
        rw [if_neg (by decide)]
        rw [if_pos (by trivial)]
        exact hoe (.oeMol m)
      · intro backend hb1 hb2
        simp only [load_molecule]
        rw [if_neg (by simpa using hb1), if_neg (by simpa using hb2)]

lemma rfind_eq_none {c : Char} {l : List Char} (h : c ∉ l) : rfind c l = none := by
  induction l with
  | nil => rfl
  | cons x xs ih =>
    have hx : x ≠ c := fun hc => h (hc ▸ List.mem_cons_self x xs)
    have hxs : c ∉ xs := fun hc => h (List.mem_cons_of_mem x hc)
    simp only [rfind, ih hxs, if_neg hx]

lemma rfind_append_some {c : Char} {l2 : List Char} {k : Nat} (l1 : List Char)
    (h : rfind c l2 = some k) : rfind c (l1 ++ l2) = some (l1.length + k) := by
  induction l1 with
  | nil => simpa using h
  | cons x xs ih =>
    simp only [List.cons_append, rfind, List.append_eq]
    rw [ih, List.length_cons, Nat.add_right_comm]

lemma rfind_append_none {c : Char} {l2 : List Char} (l1 : List Char)
    (h : rfind c l2 = none) : rfind c (l1 ++ l2) = rfind c l1 := by
  induction l1 with
  | nil => simpa using h
  | cons x xs ih =>
    simp only [List.cons_append, rfind, List.append_eq]
    rw [ih]

/-- `splitext` on a well-formed `stem.ext` name: the stem has a non-dot
character, contains no slash, and the extension is nonempty with no dot or
slash — then the split is at the final dot. -/
lemma splitext_append (stem e : List Char) (he : '.' ∉ e)
    (hstem : '/' ∉ stem) (hes : '/' ∉ e) (hnd : ∃ c ∈ stem, c ≠ '.') :
    splitext (stem ++ '.' :: e) = (stem, '.' :: e) := by
  have hdotcons : rfind '.' ('.' :: e) = some 0 := by
    simp [rfind, rfind_eq_none he]
  have hd : rfind '.' (stem ++ '.' :: e) = some stem.length := by
    simpa using rfind_append_some stem hdotcons
  have hsep : rfind '/' (stem ++ '.' :: e) = none := by
    apply rfind_eq_none
    intro hmem
    rcases List.mem_append.mp hmem with hm | hm
    · exact hstem hm
    · rcases List.mem_cons.mp hm with hm | hm
      · cases hm
      · exact hes hm
  have htake : (stem ++ '.' :: e).take stem.length = stem := List.take_left stem _
  have hdrop : (stem ++ '.' :: e).drop stem.length = '.' :: e := List.drop_left stem _
  have hany : (stem.any fun ch => decide (ch ≠ '.')) = true := by
    rw [List.any_eq_true]
    obtain ⟨ch, hch, hchne⟩ := hnd
    exact ⟨ch, hch, by simpa using hchne⟩
  simp only [splitext, hd, hsep, htake, hdrop]
  rw [if_pos hany]

lemma splitext_no_dot {s : List Char} (h : '.' ∉ s) : splitext s = (s, []) := by
  simp only [splitext, rfind_eq_none h]

lemma string_gz_toList : ".gz".toList = ['.', 'g', 'z'] := rfl

/-- `_get_extension` on `stem.e` with `e ≠ "gz"`: the final extension. -/
lemma get_extension_plain (stem e : List Char) (_hne : e ≠ []) (he : '.' ∉ e)
    (hstem : '/' ∉ stem) (hes : '/' ∉ e) (hnd : ∃ c ∈ stem, c ≠ '.')
    (hgz : e ≠ "gz".toList) :
    _get_extension (stem ++ '.' :: e) = '.' :: e := by
  have hse := splitext_append stem e he hstem hes hnd
  have hneq : ('.' :: e) ≠ ".gz".toList := by
    intro hc
    rw [string_gz_toList] at hc
    simp only [List.cons.injEq, true_and] at hc
    exact hgz hc
  simp only [_get_extension, hse, if_neg hneq]

/-- `_get_extension` on `stem.e.gz`: the penultimate extension concatenated
with `.gz`. -/
lemma get_extension_gz (stem e : List Char) (_hne : e ≠ []) (he : '.' ∉ e)
    (hstem : '/' ∉ stem) (hes : '/' ∉ e) (hnd : ∃ c ∈ stem, c ≠ '.') :
    _get_extension (stem ++ '.' :: e ++ ".gz".toList) = ('.' :: e) ++ ".gz".toList := by
  have hassoc : stem ++ '.' :: e ++ ".gz".toList
      = (stem ++ '.' :: e) ++ '.' :: ['g', 'z'] := by
    simp [string_gz_toList]
  have hnd2 : ∃ c ∈ stem ++ '.' :: e, c ≠ '.' := by
    obtain ⟨c, hc, hcne⟩ := hnd
    exact ⟨c, List.mem_append_left _ hc, hcne⟩
  have hstem2 : '/' ∉ stem ++ '.' :: e := by
    intro hmem
    rcases List.mem_append.mp hmem with hm | hm
    · exact hstem hm
    · rcases List.mem_cons.mp hm with hm | hm
      · cases hm
      · exact hes hm
  have houter : splitext ((stem ++ '.' :: e) ++ '.' :: ['g', 'z'])
      = (stem ++ '.' :: e, '.' :: ['g', 'z']) :=
    splitext_append (stem ++ '.' :: e) ['g', 'z'] (by decide) hstem2 (by decide) hnd2
  have hinner := splitext_append stem e he hstem hes hnd
  rw [hassoc]
  simp only [_get_extension, houter, string_gz_toList, hinner]
  rw [if_pos trivial]

/-- `_get_extension` of a name with no dot is empty. -/
lemma get_extension_no_dot {s : List Char} (h : '.' ∉ s) : _get_extension s = [] := by
  have := splitext_no_dot h
  simp only [_get_extension, this]
  rw [if_neg (by rw [string_gz_toList]; exact fun hc => by cases hc)]

/-- C6. `_load_mol_rd` on strings dispatches on `_get_extension`: an empty
extension is parsed as SMILES (a `Warning` when the parse fails), `.pdb`,
`.mol2` and `.tpl` go to the corresponding parser, and any other non-empty
extension raises `KeyError`; `_get_extension` returns the final extension,
except that a name ending in `.gz` keeps its penultimate extension as well,
and a name with no dot has no extension. -/
theorem load_mol_rd_extension_dispatch (tk : RdToolkit) (has_openeye : Bool) :
    (∀ s, _get_extension s = [] → tk.molFromSmiles s = none →
      _load_mol_rd tk has_openeye (.str s) = .error (.warning "Could not parse molecule")) ∧
    (∀ s m, _get_extension s = [] → tk.molFromSmiles s = some m →
      _load_mol_rd tk has_openeye (.str s) = .ok (some m)) ∧
    (∀ s, _get_extension s = ".pdb".toList →
      _load_mol_rd tk has_openeye (.str s) = .ok (tk.molFromPDBFile s)) ∧
    (∀ s, _get_extension s = ".mol2".toList →
      _load_mol_rd tk has_openeye (.str s) = .ok (tk.molFromMol2File s)) ∧
    (∀ s, _get_extension s = ".tpl".toList →
      _load_mol_rd tk has_openeye (.str s) = .ok (tk.molFromTPLFile s)) ∧
    (∀ s, _get_extension s ≠ [] → _get_extension s ≠ ".pdb".toList →
      _get_extension s ≠ ".mol2".toList → _get_extension s ≠ ".tpl".toList →
      ∃ msg, _load_mol_rd tk has_openeye (.str s) = .error (.keyError msg)) ∧
    (∀ stem e, e ≠ [] → '.' ∉ e → '/' ∉ stem → '/' ∉ e → (∃ c ∈ stem, c ≠ '.') →
      e ≠ "gz".toList → _get_extension (stem ++ '.' :: e) = '.' :: e) ∧
    (∀ stem e, e ≠ [] → '.' ∉ e → '/' ∉ stem → '/' ∉ e → (∃ c ∈ stem, c ≠ '.') →
      _get_extension (stem ++ '.' :: e ++ ".gz".toList) = ('.' :: e) ++ ".gz".toList) ∧
    (∀ s, '.' ∉ s → _get_extension s = []) := by
  refine ⟨?_, ?_, ?_, ?_, ?_, ?_, ?_, ?_, ?_⟩
  · intro s hext hsm
    simp only [_load_mol_rd, hext, hsm]
    rw [if_pos trivial]
  · intro s m hext hsm
    simp only [_load_mol_rd, hext, hsm]
    rw [if_pos trivial]
  · intro s hext
    simp only [_load_mol_rd, hext]
    rw [if_neg (by decide)]
    rfl
  · intro s hext
    simp only [_load_mol_rd, hext]
    rw [if_neg (by decide)]
    rfl
  · intro s hext
    simp only [_load_mol_rd, hext]
    rw [if_neg (by decide)]
    rfl
  · intro s h0 h1 h2 h3
    have b1 : (_get_extension s == ['.', 'p', 'd', 'b']) = false :=
      beq_eq_false_iff_ne.mpr h1
    have b2 : (_get_extension s == ['.', 'm', 'o', 'l', '2']) = false :=
      beq_eq_false_iff_ne.mpr h2
    have b3 : (_get_extension s == ['.', 't', 'p', 'l']) = false :=
      beq_eq_false_iff_ne.mpr h3
    have hlk : (_EXT_DISPATCH_TABLE tk).lookup (_get_extension s) = none := by
      simp [_EXT_DISPATCH_TABLE, List.lookup, b1, b2, b3]
    refine ⟨"Could not parse " ++ String.mk (_get_extension s), ?_⟩
    simp only [_load_mol_rd, hlk]
    rw [if_neg h0]
  · intro stem e h1 h2 h3 h4 h5 h6
    exact get_extension_plain stem e h1 h2 h3 h4 h5 h6
  · intro stem e h1 h2 h3 h4 h5
    exact get_extension_gz stem e h1 h2 h3 h4 h5
  · intro s hs
    exact get_extension_no_dot hs

/-- Witness for C6: a `.pdb` filename goes to the PDB parser. -/
theorem load_mol_rd_extension_dispatch_witness :
    _load_mol_rd stubRdToolkit true (.str "mol.pdb".toList)
      = .ok (stubRdToolkit.molFromPDBFile "mol.pdb".toList) :=
  (load_mol_rd_extension_dispatch stubRdToolkit true).2.2.1 "mol.pdb".toList (by decide)

/-- Witness for C4: an unknown backend string raises `RuntimeError`. -/
theorem load_molecule_dispatch_witness :
    load_molecule stubRdToolkit stubOeToolkit (fun _ => true) true false
        (.str "CC".toList) "psi4"
      = .error (.runtimeError "You must have either RDKit or OpenEye installed") :=
  ((load_molecule_dispatch stubRdToolkit stubOeToolkit (fun _ => true) true false).2
    (.str "CC".toList) (fun j h => by cases h)).2.2 "psi4" (by decide) (by decide)

/-- Witness for C8: the empty molecule is vacuously mapped. -/
theorem is_mapped_true_iff_no_zero_map_witness :
    is_mapped (.oe ⟨[]⟩) = true :=
  (is_mapped_true_iff_no_zero_map (.oe ⟨[]⟩)).2 rfl

end Cmiles

